import Mathlib

/-!
Shallow embedding of the redex in-memory dex object model (DexClass.h):
interned strings, types, type lists, prototypes, fields, methods and
classes, together with the DexSpec-compliant comparators, the string
encoder, and a state model of the interning authority (RedexContext).

C strings are modelled as lists of byte values (`List Nat`), without the
terminating zero byte; pointers are modelled as natural-number
identifiers paired with the pointed-to value where the code dereferences
them; the fatal assertion path (`assert` / `always_assert`) is modelled
by an `Option` result, `none` meaning the abort path was taken.
-/

/-- Model of C `strcmp` on zero-terminated byte strings, viewed as lists of
nonzero bytes: returns a negative, zero or positive integer as the first
string is below, equal to or above the second in byte order (the list end
plays the role of the terminating zero byte, which is below every content
byte). -/
def strcmp : List Nat → List Nat → Int
  | [], [] => 0
  | [], _ :: _ => -1
  | _ :: _, [] => 1
  | a :: as, b :: bs => if a < b then -1 else if b < a then 1 else strcmp as bs

/-- A DexString object: `cstr` models `m_cstr` (the bytes, zero byte
excluded), `utfsize` models `m_utfsize` as passed to the private
constructor; `m_strlen` is `strlen(nstr)`, i.e. `cstr.length`. -/
structure DexString where
  cstr : List Nat
  utfsize : Nat
deriving DecidableEq, Repr

/-- Model of `m_strlen`, which the private constructor computes as
`strlen(nstr)`. -/
def DexString.strlen (s : DexString) : Nat := s.cstr.length

/-- DexString::is_simple: the string is simple when its raw length equals
its encoded length. -/
def DexString.is_simple (s : DexString) : Bool :=
  if s.strlen = s.utfsize then true else false

/-- Modelled from the spec: the variable-length unsigned integer encoding
(LEB128-style) used for String length prefixes; `write_uleb128` itself
lives in dexdefs.h, outside the inspected source. Emits seven bits per
byte, least significant first, with the continuation bit 0x80 set on all
bytes but the last. -/
def write_uleb128 (n : Nat) : List Nat :=
  if h : n < 0x80 then [n]
  else (n % 0x80 + 0x80) :: write_uleb128 (n / 0x80)
decreasing_by
  exact Nat.div_lt_self (Nat.lt_of_lt_of_le (by decide) (Nat.le_of_not_lt h)) (by decide)

/-- Modelled from the spec: size in bytes of the variable-length unsigned
integer encoding of `n`; `uleb128_encoding_size` itself lives in
dexdefs.h, outside the inspected source. -/
def uleb128_encoding_size (n : Nat) : Nat :=
  if h : n < 0x80 then 1
  else 1 + uleb128_encoding_size (n / 0x80)
decreasing_by
  exact Nat.div_lt_self (Nat.lt_of_lt_of_le (by decide) (Nat.le_of_not_lt h)) (by decide)

/-- DexString::get_entry_size: uleb128 size of the encoded-text length,
plus the raw length, plus one for the terminating zero byte. -/
def DexString.get_entry_size (s : DexString) : Nat :=
  uleb128_encoding_size s.utfsize + s.strlen + 1

/-- DexString::encode: write the uleb128 length prefix of `m_utfsize`,
then `strcpy` the raw bytes, which also writes the terminating zero
byte. The result is the exact byte sequence written to `output`. -/
def DexString.encode (s : DexString) : List Nat :=
  write_uleb128 s.utfsize ++ s.cstr ++ [0]

/-- Modelled from the spec: the code-point decoder consumed by
`compare_dexstrings` (`mutf8_next_code_point` is declared outside the
inspected source). Decodes one MUTF-8 code point from the front of the
byte list and returns it together with the remaining bytes; at the end of
the string it reads the terminating zero byte, yielding code point 0 and
no progress. -/
def mutf8_next_code_point : List Nat → Nat × List Nat
  | [] => (0, [])
  | b0 :: rest =>
    if b0 < 0x80 then (b0, rest)
    else if b0 < 0xe0 then
      match rest with
      | [] => (b0 % 0x20 * 0x40, [])
      | b1 :: rest1 => (b0 % 0x20 * 0x40 + b1 % 0x40, rest1)
    else
      match rest with
      | [] => (b0 % 0x10 * 0x1000, [])
      | [b1] => (b0 % 0x10 * 0x1000 + b1 % 0x40 * 0x40, [])
      | b1 :: b2 :: rest2 => (b0 % 0x10 * 0x1000 + b1 % 0x40 * 0x40 + b2 % 0x40, rest2)

theorem mutf8_next_code_point_length (b0 : Nat) (rest : List Nat) :
    (mutf8_next_code_point (b0 :: rest)).2.length < (b0 :: rest).length := by
  rcases rest with _ | ⟨b1, rest1⟩
  · simp only [mutf8_next_code_point]
    split_ifs <;> simp
  · rcases rest1 with _ | ⟨b2, rest2⟩ <;>
      · simp only [mutf8_next_code_point]
        split_ifs <;> simp <;> omega

/-- Full code-point decoding of a byte string, used to state what the
lockstep loop of `compare_dexstrings` computes. -/
def mutf8_decode (s : List Nat) : List Nat :=
  match s with
  | [] => []
  | b0 :: rest =>
    (mutf8_next_code_point (b0 :: rest)).1 ::
      mutf8_decode (mutf8_next_code_point (b0 :: rest)).2
termination_by s.length
decreasing_by exact mutf8_next_code_point_length _ _

/-- The `while (1)` loop of `compare_dexstrings`: decode one code point
from each side; on a difference the numeric code-point order decides; on
equal code points a side that has reached its terminating zero byte makes
the result, the left side winning the check. -/
def compare_loop (sa sb : List Nat) : Bool :=
  if (mutf8_next_code_point sa).1 = (mutf8_next_code_point sb).1 then
    if (mutf8_next_code_point sa).2.isEmpty then true
    else if (mutf8_next_code_point sb).2.isEmpty then false
    else compare_loop (mutf8_next_code_point sa).2 (mutf8_next_code_point sb).2
  else decide ((mutf8_next_code_point sa).1 < (mutf8_next_code_point sb).1)
termination_by sa.length
decreasing_by
  rcases sa with _ | ⟨b0, rest⟩
  · simp [mutf8_next_code_point] at *
  · exact mutf8_next_code_point_length b0 rest

/-- compare_dexstrings (DexClass.h lines 122-151): simple strings compare
by raw `strcmp`; otherwise equal strings tie, an empty string is below a
nonempty one, and the lockstep code-point loop decides the rest. -/
def compare_dexstrings (a b : DexString) : Bool :=
  if a.is_simple && b.is_simple then decide (strcmp a.cstr b.cstr < 0)
  else if strcmp a.cstr b.cstr = 0 then false
  else if a.cstr.length = 0 then true
  else if b.cstr.length = 0 then false
  else compare_loop a.cstr b.cstr

/-- Code-point order as the spec words it: compare code point by code
point, the first differing code point deciding ascending by numeric
value; a sequence exhausted while the other continues is smaller; equal
sequences are a tie. -/
def codePointLess : List Nat → List Nat → Bool
  | _, [] => false
  | [], _ :: _ => true
  | a :: as, b :: bs => if a = b then codePointLess as bs else decide (a < b)

/-- A DexString pointer: the address (`id`) plus the pointed-to value.
Distinct addresses may carry arbitrary values in the model; the interning
invariant that ties address equality to content equality is an explicit
hypothesis where a claim relies on it. -/
structure DexStrPtr where
  id : Nat
  val : DexString
deriving DecidableEq, Repr

/-- A DexType pointer: the address plus the `m_name` string pointer the
object holds. -/
structure DexTypePtr where
  id : Nat
  name : DexStrPtr
deriving DecidableEq, Repr

/-- compare_dextypes: order two types by the string order of their
names. -/
def compare_dextypes (a b : DexTypePtr) : Bool :=
  compare_dexstrings a.name.val b.name.val

/-- DexTypeList::operator< (DexClass.h lines 344-358): walk both element
lists in lockstep; the right list ending first (including simultaneous
exhaustion) yields false, the left list ending first yields true, and at
the first pointer-unequal pair the element type order decides. -/
def DexTypeList.lt : List DexTypePtr → List DexTypePtr → Bool
  | _, [] => false
  | [], _ :: _ => true
  | a :: as, b :: bs =>
    if a.id ≠ b.id then compare_dextypes a b else DexTypeList.lt as bs

/-- A DexProto object: return type pointer, argument type-list and
shorty string pointer, as held by the interned object. -/
structure DexProto where
  rtype : DexTypePtr
  args : List DexTypePtr
  shorty : DexStrPtr
deriving DecidableEq, Repr

/-- compare_dexprotos (DexClass.h lines 413-418): return-type order when
the return type pointers differ, argument type-list order otherwise. -/
def compare_dexprotos (a b : DexProto) : Bool :=
  if a.rtype.id ≠ b.rtype.id then compare_dextypes a.rtype b.rtype
  else DexTypeList.lt a.args b.args

/-- A DexMethod pointer with the reference triple its object holds:
declaring class pointer, name string pointer, and prototype. -/
structure DexMethodPtr where
  id : Nat
  cls : DexTypePtr
  name : DexStrPtr
  proto : DexProto
deriving DecidableEq, Repr

/-- compare_dexmethods (DexClass.h lines 658-666): declaring-type order
when the class pointers differ, then name string order when the name
pointers differ, then prototype order. -/
def compare_dexmethods (a b : DexMethodPtr) : Bool :=
  if a.cls.id ≠ b.cls.id then compare_dextypes a.cls b.cls
  else if a.name.id ≠ b.name.id then compare_dexstrings a.name.val b.name.val
  else compare_dexprotos a.proto b.proto

/-- String pointers directly reachable from a method's comparison keys:
its name, its declaring type's name, and the names inside its
prototype. -/
def DexMethodPtr.stringsOf (m : DexMethodPtr) : List DexStrPtr :=
  m.name :: m.cls.name :: m.proto.rtype.name :: m.proto.shorty ::
    m.proto.args.map DexTypePtr.name

/-- Type pointers directly reachable from a method's comparison keys. -/
def DexMethodPtr.typesOf (m : DexMethodPtr) : List DexTypePtr :=
  m.cls :: m.proto.rtype :: m.proto.args

/-- Interning discipline on a collection of string pointers: equal
addresses or equal byte content force the same pointer. -/
def stringsOK (S : List DexStrPtr) : Prop :=
  ∀ s₁ ∈ S, ∀ s₂ ∈ S, (s₁.id = s₂.id ∨ s₁.val.cstr = s₂.val.cstr) → s₁ = s₂

/-- Interning discipline on a collection of type pointers: equal
addresses or the same name pointer force the same pointer. -/
def typesOK (T : List DexTypePtr) : Prop :=
  ∀ t₁ ∈ T, ∀ t₂ ∈ T, (t₁.id = t₂.id ∨ t₁.name = t₂.name) → t₁ = t₂

/-- Interning discipline for the methods of a list, as the spec's
uniqueness invariant gives it: strings keyed by content, types by name,
prototypes by (return type, argument list), methods by
(class, name, prototype). -/
def methodsInterned (l : List DexMethodPtr) : Prop :=
  stringsOK (l.flatMap DexMethodPtr.stringsOf) ∧
  typesOK (l.flatMap DexMethodPtr.typesOf) ∧
  (∀ m₁ ∈ l, ∀ m₂ ∈ l, m₁.proto.rtype = m₂.proto.rtype →
      m₁.proto.args = m₂.proto.args → m₁.proto = m₂.proto) ∧
  (∀ m₁ ∈ l, ∀ m₂ ∈ l, m₁.cls = m₂.cls → m₁.name = m₂.name →
      m₁.proto = m₂.proto → m₁ = m₂)

/-- A DexField object's members (DexClass.h lines 211-234): the reference
triple plus the concrete-member state. Annotation sets and encoded values
are opaque here and stand for the pointers the object stores. -/
structure DexFieldObj where
  cls : Nat
  name : Nat
  ftype : Nat
  anno : Option Nat
  value : Option Nat
  access : Nat
  concrete : Bool
  external : Bool
deriving DecidableEq, Repr

/-- The private DexField constructor (DexClass.h lines 225-234): a bare
reference with cleared flags, no annotations, no static value and access
flags zero. -/
def DexField.init (container name ftype : Nat) : DexFieldObj :=
  { cls := container, name := name, ftype := ftype, anno := none,
    value := none, access := 0, concrete := false, external := false }

/-- DexField::get_anno_set. -/
def DexFieldObj.get_anno_set (f : DexFieldObj) : Option Nat := f.anno

/-- DexField::get_static_value. -/
def DexFieldObj.get_static_value (f : DexFieldObj) : Option Nat := f.value

/-- DexField::is_def: concrete or external. -/
def DexFieldObj.is_def (f : DexFieldObj) : Bool := f.concrete || f.external

/-- DexField::get_access: `always_assert(is_def())`, then return the
stored flags; `none` is the fatal assertion path. -/
def DexFieldObj.get_access (f : DexFieldObj) : Option Nat :=
  if f.is_def then some f.access else none

/-- DexField::set_access: `assert(!m_external)`, then store the flags. -/
def DexFieldObj.set_access (f : DexFieldObj) (a : Nat) : Option DexFieldObj :=
  if f.external then none else some { f with access := a }

/-- DexField::set_external: `always_assert(!m_concrete)`, then set the
external flag. -/
def DexFieldObj.set_external (f : DexFieldObj) : Option DexFieldObj :=
  if f.concrete then none else some { f with external := true }

/-- DexField::attach_annotation_set (DexClass.h lines 281-289): store the
set when none is attached and the field is not concrete; every other case
is the fatal `always_assert_log` path. -/
def DexFieldObj.attach_annotation_set (f : DexFieldObj) (aset : Nat) :
    Option DexFieldObj :=
  if f.anno = none ∧ f.concrete = false then some { f with anno := some aset }
  else none

/-- DexField::clear_annotations: delete and null the annotation set. -/
def DexFieldObj.clear_annotations (f : DexFieldObj) : DexFieldObj :=
  { f with anno := none }

/-- A DexMethod object's members (DexClass.h lines 511-538): reference
triple plus concrete-member state; `virt` models `m_virtual` and
`param_anno` the `std::map<int, DexAnnotationSet*>`. -/
structure DexMethodObj where
  cls : Nat
  name : Nat
  proto : Nat
  anno : Option Nat
  code : Option Nat
  access : Nat
  concrete : Bool
  virt : Bool
  external : Bool
  param_anno : List (Int × Nat)
deriving DecidableEq, Repr

/-- The private DexMethod constructor (DexClass.h lines 528-538): a bare
reference with cleared flags, no annotations, no code, access flags zero
and an empty parameter-annotation map. -/
def DexMethod.init (cls name proto : Nat) : DexMethodObj :=
  { cls := cls, name := name, proto := proto, anno := none, code := none,
    access := 0, concrete := false, virt := false, external := false,
    param_anno := [] }

/-- Association-list lookup, modelling the `std::map`/table lookups. -/
def assoc {κ α : Type} [DecidableEq κ] : List (κ × α) → κ → Option α
  | [], _ => none
  | (k, v) :: rest, key => if key = k then some v else assoc rest key

/-- Remove every binding of a key, modelling `std::map::erase`. -/
def eraseKey {κ α : Type} [DecidableEq κ] (l : List (κ × α)) (k : κ) :
    List (κ × α) :=
  l.filter fun p => decide (p.1 ≠ k)

/-- DexMethod::get_anno_set. -/
def DexMethodObj.get_anno_set (m : DexMethodObj) : Option Nat := m.anno

/-- DexMethod::get_code. -/
def DexMethodObj.get_code (m : DexMethodObj) : Option Nat := m.code

/-- DexMethod::is_virtual. -/
def DexMethodObj.is_virtual (m : DexMethodObj) : Bool := m.virt

/-- DexMethod::is_def: concrete or external. -/
def DexMethodObj.is_def (m : DexMethodObj) : Bool := m.concrete || m.external

/-- DexMethod::get_access: `always_assert(is_def())`, then return the
stored flags. -/
def DexMethodObj.get_access (m : DexMethodObj) : Option Nat :=
  if m.is_def then some m.access else none

/-- DexMethod::get_param_anno: null when the map is empty, otherwise the
map. -/
def DexMethodObj.get_param_anno (m : DexMethodObj) : Option (List (Int × Nat)) :=
  if m.param_anno.length = 0 then none else some m.param_anno

/-- DexMethod::set_access: `assert(!m_external)`, then store the flags. -/
def DexMethodObj.set_access (m : DexMethodObj) (a : Nat) : Option DexMethodObj :=
  if m.external then none else some { m with access := a }

/-- DexMethod::set_virtual: `assert(!m_external)`, then set the flag. -/
def DexMethodObj.set_virtual (m : DexMethodObj) (v : Bool) : Option DexMethodObj :=
  if m.external then none else some { m with virt := v }

/-- DexMethod::set_external: `always_assert(!m_concrete)`. -/
def DexMethodObj.set_external (m : DexMethodObj) : Option DexMethodObj :=
  if m.concrete then none else some { m with external := true }

/-- DexMethod::set_code: unguarded store. -/
def DexMethodObj.set_code (m : DexMethodObj) (c : Option Nat) : DexMethodObj :=
  { m with code := c }

/-- DexMethod::attach_annotation_set (DexClass.h lines 627-634). -/
def DexMethodObj.attach_annotation_set (m : DexMethodObj) (aset : Nat) :
    Option DexMethodObj :=
  if m.anno = none ∧ m.concrete = false then some { m with anno := some aset }
  else none

/-- DexMethod::attach_param_annotation_set (DexClass.h lines 635-643):
store under `paramno` when that key is absent and the method is not
concrete; otherwise the fatal path. -/
def DexMethodObj.attach_param_annotation_set (m : DexMethodObj) (paramno : Int)
    (aset : Nat) : Option DexMethodObj :=
  if assoc m.param_anno paramno = none ∧ m.concrete = false then
    some { m with param_anno := (paramno, aset) :: m.param_anno }
  else none

/-- DexMethod::clear_annotations. -/
def DexMethodObj.clear_annotations (m : DexMethodObj) : DexMethodObj :=
  { m with anno := none }

/-- The DexClass members a claim touches (DexClass.h lines 670-720):
access flags, external flag, the four member lists and the interface
list, members and interfaces standing for the stored pointers. -/
structure DexClassObj where
  access : Nat
  external : Bool
  sfields : List Nat
  ifields : List Nat
  dmethods : List Nat
  vmethods : List Nat
  interfaces : List Nat
deriving DecidableEq, Repr

/-- The mutable overload of DexClass::get_dmethods:
`assert(!m_external)`, then hand out the mutable list. -/
def DexClassObj.get_dmethods_mut (c : DexClassObj) : Option (List Nat) :=
  if c.external then none else some c.dmethods

/-- The mutable overload of DexClass::get_vmethods. -/
def DexClassObj.get_vmethods_mut (c : DexClassObj) : Option (List Nat) :=
  if c.external then none else some c.vmethods

/-- The mutable overload of DexClass::get_sfields. -/
def DexClassObj.get_sfields_mut (c : DexClassObj) : Option (List Nat) :=
  if c.external then none else some c.sfields

/-- The mutable overload of DexClass::get_ifields. -/
def DexClassObj.get_ifields_mut (c : DexClassObj) : Option (List Nat) :=
  if c.external then none else some c.ifields

/-- DexClass::set_access: `assert(!m_external)`. -/
def DexClassObj.set_access (c : DexClassObj) (a : Nat) : Option DexClassObj :=
  if c.external then none else some { c with access := a }

/-- DexClass::set_interfaces: `assert(!m_external)`. -/
def DexClassObj.set_interfaces (c : DexClassObj) (l : List Nat) :
    Option DexClassObj :=
  if c.external then none else some { c with interfaces := l }

/-- Modelled from the spec: the interning authority's state
(RedexContext, whose implementation lives outside the inspected source).
One lookup table per entity kind, keyed by the identifying attribute
tuple: strings by byte content, types by name-string pointer, fields by
(declaring type, name, type), methods by (declaring type, name,
prototype). `typeHeap` records each type object's `m_name` field,
`fieldHeap`/`methodHeap` record the constructed objects, and `next` is
the fresh-address counter. -/
structure RedexContext where
  strings : List (List Nat × Nat)
  types : List (Nat × Nat)
  typeHeap : List (Nat × Nat)
  fields : List ((Nat × Nat × Nat) × Nat)
  fieldHeap : List (Nat × DexFieldObj)
  methods : List ((Nat × Nat × Nat) × Nat)
  methodHeap : List (Nat × DexMethodObj)
  next : Nat
deriving DecidableEq, Repr

/-- The empty interning authority. -/
def RedexContext.empty : RedexContext :=
  { strings := [], types := [], typeHeap := [], fields := [],
    fieldHeap := [], methods := [], methodHeap := [], next := 0 }

/-- Modelled from the spec: RedexContext::make_string — return the
canonical string for this byte content, creating it on first call. The
content alone is the key; `utfsize` only feeds the constructor. -/
def RedexContext.makeString (g : RedexContext) (nstr : List Nat)
    (_utfsize : Nat) : Nat × RedexContext :=
  match assoc g.strings nstr with
  | some p => (p, g)
  | none =>
    (g.next, { g with strings := (nstr, g.next) :: g.strings,
                      next := g.next + 1 })

/-- Modelled from the spec: RedexContext::get_string — non-creating
lookup. -/
def RedexContext.getString (g : RedexContext) (nstr : List Nat) : Option Nat :=
  assoc g.strings nstr

/-- Modelled from the spec: RedexContext::make_type — keyed by the name
string pointer; on a miss the DexType constructor stores the name, here
recorded in `typeHeap`. -/
def RedexContext.makeType (g : RedexContext) (nameStr : Nat) :
    Nat × RedexContext :=
  match assoc g.types nameStr with
  | some p => (p, g)
  | none =>
    (g.next, { g with types := (nameStr, g.next) :: g.types,
                      typeHeap := (g.next, nameStr) :: g.typeHeap,
                      next := g.next + 1 })

/-- Modelled from the spec: RedexContext::get_type. -/
def RedexContext.getType (g : RedexContext) (nameStr : Nat) : Option Nat :=
  assoc g.types nameStr

/-- Modelled from the spec: RedexContext::alias_type_name, behind
DexType::assign_name_alias — within one critical section, remove the old
key from the type table, mutate `m_name` in place, and insert the new
key; a type object the heap does not know is left untouched. -/
def RedexContext.aliasTypeName (g : RedexContext) (t newName : Nat) :
    RedexContext :=
  match assoc g.typeHeap t with
  | none => g
  | some oldName =>
    { g with types := (newName, t) :: eraseKey g.types oldName,
             typeHeap := (t, newName) :: eraseKey g.typeHeap t }

/-- Modelled from the spec: RedexContext::make_field — keyed by the
(declaring type, name, type) triple; on a miss the private DexField
constructor builds the object recorded in `fieldHeap`. -/
def RedexContext.makeField (g : RedexContext) (cls name ftype : Nat) :
    Nat × RedexContext :=
  match assoc g.fields (cls, name, ftype) with
  | some p => (p, g)
  | none =>
    (g.next, { g with
      fields := ((cls, name, ftype), g.next) :: g.fields,
      fieldHeap := (g.next, DexField.init cls name ftype) :: g.fieldHeap,
      next := g.next + 1 })

/-- Modelled from the spec: RedexContext::get_field. -/
def RedexContext.getField (g : RedexContext) (cls name ftype : Nat) :
    Option Nat :=
  assoc g.fields (cls, name, ftype)

/-- Modelled from the spec: RedexContext::make_method — keyed by the
(declaring type, name, prototype) triple; on a miss the private DexMethod
constructor builds the object recorded in `methodHeap`. -/
def RedexContext.makeMethod (g : RedexContext) (cls name proto : Nat) :
    Nat × RedexContext :=
  match assoc g.methods (cls, name, proto) with
  | some p => (p, g)
  | none =>
    (g.next, { g with
      methods := ((cls, name, proto), g.next) :: g.methods,
      methodHeap := (g.next, DexMethod.init cls name proto) :: g.methodHeap,
      next := g.next + 1 })

/-- Modelled from the spec: RedexContext::get_method. -/
def RedexContext.getMethod (g : RedexContext) (cls name proto : Nat) :
    Option Nat :=
  assoc g.methods (cls, name, proto)

/-- A creating factory call on the interning authority, with its
identifying arguments. -/
inductive RedexOp : Type
  | mkString (nstr : List Nat) (utfsize : Nat)
  | mkType (nameStr : Nat)
  | mkField (cls name ftype : Nat)
  | mkMethod (cls name proto : Nat)
deriving DecidableEq, Repr

/-- Run one factory call, returning the canonical pointer and the next
state. -/
def RedexContext.exec (g : RedexContext) : RedexOp → Nat × RedexContext
  | .mkString nstr utfsize => g.makeString nstr utfsize
  | .mkType n => g.makeType n
  | .mkField c n t => g.makeField c n t
  | .mkMethod c n p => g.makeMethod c n p

/-- The non-creating `get_*` lookup matching a factory call's key. -/
def RedexContext.opLookup (g : RedexContext) : RedexOp → Option Nat
  | .mkString nstr _ => g.getString nstr
  | .mkType n => g.getType n
  | .mkField c n t => g.getField c n t
  | .mkMethod c n p => g.getMethod c n p

/-- Run a sequence of factory calls, discarding the returned pointers. -/
def RedexContext.run (g : RedexContext) : List RedexOp → RedexContext
  | [] => g
  | op :: rest => ((g.exec op).2).run rest

/-- Two factory calls hit the same interning-table entry: same kind and
attribute-equal key (for strings, the byte content is the key). -/
def RedexOp.sameKey : RedexOp → RedexOp → Bool
  | .mkString s _, .mkString s' _ => decide (s = s')
  | .mkType n, .mkType n' => decide (n = n')
  | .mkField c n t, .mkField c' n' t' => decide (c = c' ∧ n = n' ∧ t = t')
  | .mkMethod c n p, .mkMethod c' n' p' => decide (c = c' ∧ n = n' ∧ p = p')
  | _, _ => false

theorem strcmp_self (l : List Nat) : strcmp l l = 0 := by
  induction l with
  | nil => rfl
  | cons a as ih => simp [strcmp, ih]

theorem strcmp_eq_zero_iff (l m : List Nat) : strcmp l m = 0 ↔ l = m := by
  induction l generalizing m with
  | nil => cases m <;> simp [strcmp]
  | cons a as ih =>
    cases m with
    | nil => simp [strcmp]
    | cons b bs =>
      simp only [strcmp]
      split_ifs with h1 h2
      · simp; omega
      · simp; omega
      · have hab : a = b := by omega
        simp [hab, ih]

theorem strcmp_swap (l m : List Nat) : strcmp l m = -strcmp m l := by
  induction l generalizing m with
  | nil => cases m <;> simp [strcmp]
  | cons a as ih =>
    cases m with
    | nil => simp [strcmp]
    | cons b bs =>
      simp only [strcmp]
      split_ifs with h1 h2 <;> first | rfl | omega | exact ih bs

theorem write_uleb128_length (n : Nat) :
    (write_uleb128 n).length = uleb128_encoding_size n := by
  rw [write_uleb128, uleb128_encoding_size]
  split_ifs with h
  · simp
  · simp [write_uleb128_length (n / 0x80), Nat.add_comm]
termination_by n
decreasing_by
  exact Nat.div_lt_self (Nat.lt_of_lt_of_le (by decide) (Nat.le_of_not_lt h)) (by decide)

theorem mutf8_decode_cons (b0 : Nat) (rest : List Nat) :
    mutf8_decode (b0 :: rest) =
      (mutf8_next_code_point (b0 :: rest)).1 ::
        mutf8_decode (mutf8_next_code_point (b0 :: rest)).2 := by
  rw [mutf8_decode]

theorem mutf8_decode_ne_nil (s : List Nat) (h : s ≠ []) : mutf8_decode s ≠ [] := by
  rcases s with _ | ⟨b0, rest⟩
  · exact absurd rfl h
  · rw [mutf8_decode_cons]; simp

theorem mutf8_next_code_point_length_of_ne_nil (s : List Nat) (h : s ≠ []) :
    (mutf8_next_code_point s).2.length < s.length := by
  rcases s with _ | ⟨b0, rest⟩
  · exact absurd rfl h
  · exact mutf8_next_code_point_length b0 rest

theorem mutf8_decode_nil : mutf8_decode [] = [] := by rw [mutf8_decode]

theorem mutf8_decode_of_ne_nil (s : List Nat) (h : s ≠ []) :
    mutf8_decode s = (mutf8_next_code_point s).1 ::
      mutf8_decode (mutf8_next_code_point s).2 := by
  rcases s with _ | ⟨b0, rest⟩
  · exact absurd rfl h
  · exact mutf8_decode_cons b0 rest

theorem compare_loop_eq_codePointLess (sa sb : List Nat) (ha : sa ≠ [])
    (hb : sb ≠ []) (hne : mutf8_decode sa ≠ mutf8_decode sb) :
    compare_loop sa sb = codePointLess (mutf8_decode sa) (mutf8_decode sb) := by
  rw [compare_loop, mutf8_decode_of_ne_nil sa ha, mutf8_decode_of_ne_nil sb hb]
  rw [mutf8_decode_of_ne_nil sa ha, mutf8_decode_of_ne_nil sb hb] at hne
  by_cases hcp : (mutf8_next_code_point sa).1 = (mutf8_next_code_point sb).1
  · have hrest : mutf8_decode (mutf8_next_code_point sa).2 ≠
        mutf8_decode (mutf8_next_code_point sb).2 := by
      intro hx; exact hne (by rw [hcp, hx])
    by_cases hra : (mutf8_next_code_point sa).2 = []
    · have hrbne : mutf8_decode (mutf8_next_code_point sb).2 ≠ [] := by
        rw [hra] at hrest
        simpa [mutf8_decode_nil] using hrest.symm
      obtain ⟨c, cs, hx⟩ := List.exists_cons_of_ne_nil hrbne
      simp [hcp, hra, hx, codePointLess, mutf8_decode_nil]
    · by_cases hrb : (mutf8_next_code_point sb).2 = []
      · have hrane : mutf8_decode (mutf8_next_code_point sa).2 ≠ [] := by
          rw [hrb] at hrest
          simpa [mutf8_decode_nil] using hrest
        obtain ⟨c, cs, hx⟩ := List.exists_cons_of_ne_nil hrane
        simp [hcp, hra, hrb, hx, codePointLess, mutf8_decode_nil, List.isEmpty_iff]
      · have ih := compare_loop_eq_codePointLess (mutf8_next_code_point sa).2
          (mutf8_next_code_point sb).2 hra hrb hrest
        simp [hcp, hra, hrb, ih, codePointLess, List.isEmpty_iff]
  · simp [hcp, codePointLess]
termination_by sa.length
decreasing_by exact mutf8_next_code_point_length_of_ne_nil _ ha

theorem compare_loop_false_swap (sa sb : List Nat)
    (h : compare_loop sa sb = false) : compare_loop sb sa = true := by
  rw [compare_loop] at h
  rw [compare_loop]
  by_cases hcp : (mutf8_next_code_point sa).1 = (mutf8_next_code_point sb).1
  · simp only [hcp, if_true] at h
    by_cases hra : (mutf8_next_code_point sa).2.isEmpty
    · simp [hra] at h
    · by_cases hrb : (mutf8_next_code_point sb).2.isEmpty
      · simp [hcp.symm, hrb]
      · simp only [hra, hrb, Bool.false_eq_true, if_false] at h
        have hsane : sa ≠ [] := by
          intro hnil
          rw [hnil] at hra
          simp [mutf8_next_code_point] at hra
        have hswap := compare_loop_false_swap (mutf8_next_code_point sa).2
          (mutf8_next_code_point sb).2 h
        simp [hcp.symm, hra, hrb, hswap]
  · have hnlt : ¬ (mutf8_next_code_point sa).1 < (mutf8_next_code_point sb).1 := by
      simpa [hcp] using h
    have hlt : (mutf8_next_code_point sb).1 < (mutf8_next_code_point sa).1 := by
      omega
    simp [Ne.symm hcp, hlt]
termination_by sa.length
decreasing_by exact mutf8_next_code_point_length_of_ne_nil _ hsane

theorem compare_dexstrings_of_eq (a b : DexString) (h : a.cstr = b.cstr) :
    compare_dexstrings a b = false := by
  unfold compare_dexstrings
  have hz : strcmp a.cstr b.cstr = 0 := by rw [h]; exact strcmp_self _
  by_cases hs : a.is_simple && b.is_simple
  · simp [hs, hz]
  · simp [hs, hz]

theorem compare_dexstrings_tie_eq (a b : DexString)
    (h1 : compare_dexstrings a b = false) (h2 : compare_dexstrings b a = false) :
    a.cstr = b.cstr := by
  unfold compare_dexstrings at h1 h2
  by_cases hs : (a.is_simple && b.is_simple) = true
  · have hs' : (b.is_simple && a.is_simple) = true := by
      rw [Bool.and_comm]; exact hs
    rw [if_pos hs] at h1
    rw [if_pos hs'] at h2
    have g1 : ¬ strcmp a.cstr b.cstr < 0 := by simpa using h1
    have g2 : ¬ strcmp b.cstr a.cstr < 0 := by simpa using h2
    rw [strcmp_swap] at g2
    exact (strcmp_eq_zero_iff _ _).1 (by omega)
  · have hs' : ¬ (b.is_simple && a.is_simple) = true := by
      rw [Bool.and_comm]; exact hs
    rw [if_neg hs] at h1
    rw [if_neg hs'] at h2
    by_cases hz : strcmp a.cstr b.cstr = 0
    · exact (strcmp_eq_zero_iff _ _).1 hz
    · have hz' : ¬ strcmp b.cstr a.cstr = 0 := by
        rw [strcmp_swap]; omega
      rw [if_neg hz] at h1
      rw [if_neg hz'] at h2
      by_cases hae : a.cstr.length = 0
      · rw [if_pos hae] at h1
        exact absurd h1 (by simp)
      · by_cases hbe : b.cstr.length = 0
        · rw [if_pos hbe] at h2
          exact absurd h2 (by simp)
        · rw [if_neg hae, if_neg hbe] at h1
          rw [if_neg hbe, if_neg hae] at h2
          exact absurd (compare_loop_false_swap _ _ h1) (by simp [h2])

/-- C2: compare_dexstrings implements the spec's code-point order: for
simple strings it is raw byte comparison; byte-identical strings tie in
both orders; otherwise the lockstep loop realizes code-point order (the
first differing code point decides ascending, a strictly shorter
code-point sequence is smaller); and the spec's concrete examples hold:
the empty pair ties, the empty string is below a nonempty one, and
the bytes of abc are below those of abd. -/
theorem C2_string_ordering :
    (∀ a b : DexString, a.is_simple = true → b.is_simple = true →
        compare_dexstrings a b = decide (strcmp a.cstr b.cstr < 0)) ∧
    (∀ a b : DexString, a.cstr = b.cstr →
        compare_dexstrings a b = false ∧ compare_dexstrings b a = false) ∧
    (∀ a b : DexString, (a.is_simple && b.is_simple) = false →
        mutf8_decode a.cstr ≠ mutf8_decode b.cstr →
        compare_dexstrings a b =
          codePointLess (mutf8_decode a.cstr) (mutf8_decode b.cstr)) ∧
    compare_dexstrings ⟨[], 0⟩ ⟨[], 0⟩ = false ∧
    compare_dexstrings ⟨[], 0⟩ ⟨[0x61], 1⟩ = true ∧
    compare_dexstrings ⟨[0x61], 1⟩ ⟨[], 0⟩ = false ∧
    compare_dexstrings ⟨[0x61, 0x62, 0x63], 3⟩ ⟨[0x61, 0x62, 0x64], 3⟩ = true ∧
    compare_dexstrings ⟨[0x61, 0x62, 0x64], 3⟩ ⟨[0x61, 0x62, 0x63], 3⟩ = false := by
  refine ⟨?_, ?_, ?_, by decide, by decide, by decide, by decide, by decide⟩
  · intro a b ha hb
    unfold compare_dexstrings
    rw [if_pos (by rw [ha, hb]; rfl)]
  · intro a b h
    exact ⟨compare_dexstrings_of_eq a b h, compare_dexstrings_of_eq b a h.symm⟩
  · intro a b hs hne
    have hab : a.cstr ≠ b.cstr := fun hx => hne (by rw [hx])
    unfold compare_dexstrings
    rw [if_neg (by simp [hs])]
    rw [if_neg (fun hx => hab ((strcmp_eq_zero_iff _ _).1 hx))]
    by_cases hae : a.cstr.length = 0
    · have ha0 : a.cstr = [] := List.eq_nil_of_length_eq_zero hae
      have hbne : mutf8_decode b.cstr ≠ [] := by
        rw [ha0, mutf8_decode_nil] at hne
        exact hne.symm
      obtain ⟨c, cs, hx⟩ := List.exists_cons_of_ne_nil hbne
      rw [if_pos hae, ha0, mutf8_decode_nil, hx]
      rfl
    · rw [if_neg hae]
      by_cases hbe : b.cstr.length = 0
      · have hb0 : b.cstr = [] := List.eq_nil_of_length_eq_zero hbe
        have hane : mutf8_decode a.cstr ≠ [] := by
          rw [hb0, mutf8_decode_nil] at hne
          exact hne
        obtain ⟨c, cs, hx⟩ := List.exists_cons_of_ne_nil hane
        rw [if_pos hbe, hb0, mutf8_decode_nil, hx]
        rfl
      · rw [if_neg hbe]
        exact compare_loop_eq_codePointLess a.cstr b.cstr
          (fun hx => hae (by rw [hx]; rfl))
          (fun hx => hbe (by rw [hx]; rfl)) hne

/-- Witness for C2 at concrete inputs: two simple one-letter strings, a
byte-identical pair differing only in recorded encoded length, and a
non-simple pair decided by the code-point loop. -/
theorem C2_string_ordering_witness :
    compare_dexstrings ⟨[0x61], 1⟩ ⟨[0x62], 1⟩ =
      decide (strcmp [0x61] [0x62] < 0) ∧
    (compare_dexstrings ⟨[0x61], 2⟩ ⟨[0x61], 1⟩ = false ∧
      compare_dexstrings ⟨[0x61], 1⟩ ⟨[0x61], 2⟩ = false) ∧
    compare_dexstrings ⟨[0xc8, 0x80], 1⟩ ⟨[0x41], 1⟩ =
      codePointLess (mutf8_decode [0xc8, 0x80]) (mutf8_decode [0x41]) :=
  ⟨C2_string_ordering.1 ⟨[0x61], 1⟩ ⟨[0x62], 1⟩ (by decide) (by decide),
   C2_string_ordering.2.1 ⟨[0x61], 2⟩ ⟨[0x61], 1⟩ rfl,
   C2_string_ordering.2.2.1 ⟨[0xc8, 0x80], 1⟩ ⟨[0x41], 1⟩ (by decide)
     (by simp [mutf8_decode_cons, mutf8_next_code_point, mutf8_decode_nil])⟩

/-- C3: get_entry_size is the uleb128 size of the encoded length plus the
raw length plus one; encode emits exactly that many bytes, laid out as
the uleb128 length prefix, the raw bytes, and one zero byte; and on the
bytes of hello with encoded length 5 the size is 7 and the output is
exactly the seven expected bytes. -/
theorem C3_string_size_encode :
    (∀ s : DexString, s.get_entry_size =
        uleb128_encoding_size s.utfsize + s.cstr.length + 1) ∧
    (∀ s : DexString, (s.encode).length = s.get_entry_size) ∧
    (∀ s : DexString, s.encode = write_uleb128 s.utfsize ++ s.cstr ++ [0]) ∧
    DexString.get_entry_size ⟨[0x68, 0x65, 0x6c, 0x6c, 0x6f], 5⟩ = 7 ∧
    DexString.encode ⟨[0x68, 0x65, 0x6c, 0x6c, 0x6f], 5⟩ =
      [0x05, 0x68, 0x65, 0x6c, 0x6c, 0x6f, 0x00] := by
  refine ⟨fun s => rfl, ?_, fun s => rfl, ?_, ?_⟩
  · intro s
    simp [DexString.encode, DexString.get_entry_size, DexString.strlen,
      write_uleb128_length]
    omega
  · simp [DexString.get_entry_size, uleb128_encoding_size, DexString.strlen]
  · simp [DexString.encode, write_uleb128]

/-- C4: DexTypeList order is lexicographic on the first pointer-unequal
pair; a strict pointer-identical prefix is smaller than the longer list;
pointerwise-identical lists of equal length tie in both argument orders;
the empty list is below every nonempty list; and a pair differing only in
the second element is decided by that element's type order. -/
theorem C4_typelist_ordering :
    (∀ (pre : List DexTypePtr) (a b : DexTypePtr) (ta tb : List DexTypePtr),
        a.id ≠ b.id →
        DexTypeList.lt (pre ++ a :: ta) (pre ++ b :: tb) =
          compare_dextypes a b) ∧
    (∀ (pre : List DexTypePtr) (x : DexTypePtr) (rest : List DexTypePtr),
        DexTypeList.lt pre (pre ++ x :: rest) = true ∧
        DexTypeList.lt (pre ++ x :: rest) pre = false) ∧
    (∀ l₁ l₂ : List DexTypePtr, l₁.map DexTypePtr.id = l₂.map DexTypePtr.id →
        DexTypeList.lt l₁ l₂ = false ∧ DexTypeList.lt l₂ l₁ = false) ∧
    (∀ (x : DexTypePtr) (rest : List DexTypePtr),
        DexTypeList.lt [] (x :: rest) = true) ∧
    (∀ a b c : DexTypePtr, b.id ≠ c.id →
        DexTypeList.lt [a, b] [a, c] = compare_dextypes b c) := by
  refine ⟨?_, ?_, ?_, fun x rest => rfl, ?_⟩
  · intro pre a b ta tb h
    induction pre with
    | nil => simp [DexTypeList.lt, h]
    | cons p ps ih => simpa [DexTypeList.lt] using ih
  · intro pre x rest
    induction pre with
    | nil => exact ⟨rfl, rfl⟩
    | cons p ps ih => simpa [DexTypeList.lt] using ih
  · intro l₁ l₂ h
    induction l₁ generalizing l₂ with
    | nil =>
      have : l₂ = [] := by
        cases l₂ with
        | nil => rfl
        | cons b bs => simp at h
      simp [this, DexTypeList.lt]
    | cons a ta ih =>
      cases l₂ with
      | nil => simp at h
      | cons b tb =>
        simp only [List.map_cons, List.cons.injEq] at h
        have := ih tb h.2
        simp [DexTypeList.lt, h.1, this]
  · intro a b c h
    simp [DexTypeList.lt, h]

/-- Witness for C4 at concrete type pointers with distinct addresses and
names. -/
theorem C4_typelist_ordering_witness :
    DexTypeList.lt [⟨0, ⟨0, ⟨[0x41], 1⟩⟩⟩] [⟨1, ⟨1, ⟨[0x42], 1⟩⟩⟩] =
      compare_dextypes ⟨0, ⟨0, ⟨[0x41], 1⟩⟩⟩ ⟨1, ⟨1, ⟨[0x42], 1⟩⟩⟩ ∧
    DexTypeList.lt [⟨0, ⟨0, ⟨[0x41], 1⟩⟩⟩]
      [⟨0, ⟨0, ⟨[0x41], 1⟩⟩⟩, ⟨1, ⟨1, ⟨[0x42], 1⟩⟩⟩] = true ∧
    (DexTypeList.lt [⟨0, ⟨0, ⟨[0x41], 1⟩⟩⟩] [⟨0, ⟨0, ⟨[0x41], 1⟩⟩⟩] = false ∧
      DexTypeList.lt [⟨0, ⟨0, ⟨[0x41], 1⟩⟩⟩] [⟨0, ⟨0, ⟨[0x41], 1⟩⟩⟩] = false) ∧
    DexTypeList.lt [⟨2, ⟨2, ⟨[0x43], 1⟩⟩⟩, ⟨0, ⟨0, ⟨[0x41], 1⟩⟩⟩]
        [⟨2, ⟨2, ⟨[0x43], 1⟩⟩⟩, ⟨1, ⟨1, ⟨[0x42], 1⟩⟩⟩] =
      compare_dextypes ⟨0, ⟨0, ⟨[0x41], 1⟩⟩⟩ ⟨1, ⟨1, ⟨[0x42], 1⟩⟩⟩ :=
  ⟨C4_typelist_ordering.1 [] ⟨0, ⟨0, ⟨[0x41], 1⟩⟩⟩ ⟨1, ⟨1, ⟨[0x42], 1⟩⟩⟩ [] []
      (by decide),
   (C4_typelist_ordering.2.1 [⟨0, ⟨0, ⟨[0x41], 1⟩⟩⟩] ⟨1, ⟨1, ⟨[0x42], 1⟩⟩⟩ []).1,
   C4_typelist_ordering.2.2.1 [⟨0, ⟨0, ⟨[0x41], 1⟩⟩⟩] [⟨0, ⟨0, ⟨[0x41], 1⟩⟩⟩] rfl,
   C4_typelist_ordering.2.2.2.2 ⟨2, ⟨2, ⟨[0x43], 1⟩⟩⟩ ⟨0, ⟨0, ⟨[0x41], 1⟩⟩⟩
      ⟨1, ⟨1, ⟨[0x42], 1⟩⟩⟩ (by decide)⟩

theorem compare_dextypes_tie_eq (t₁ t₂ : DexTypePtr)
    (h1 : compare_dextypes t₁ t₂ = false) (h2 : compare_dextypes t₂ t₁ = false) :
    t₁.name.val.cstr = t₂.name.val.cstr :=
  compare_dexstrings_tie_eq _ _ h1 h2

theorem typelist_tie_eq :
    ∀ (l₁ l₂ : List DexTypePtr),
      (∀ t₁ ∈ l₁, ∀ t₂ ∈ l₂,
        (t₁.id = t₂.id ∨
          (compare_dextypes t₁ t₂ = false ∧ compare_dextypes t₂ t₁ = false)) →
        t₁ = t₂) →
      DexTypeList.lt l₁ l₂ = false → DexTypeList.lt l₂ l₁ = false → l₁ = l₂ := by
  intro l₁
  induction l₁ with
  | nil =>
    intro l₂ _ h1 _
    cases l₂ with
    | nil => rfl
    | cons b bs => exact absurd h1 (by simp [DexTypeList.lt])
  | cons a ta ih =>
    intro l₂ hOK h1 h2
    cases l₂ with
    | nil => exact absurd h2 (by simp [DexTypeList.lt])
    | cons b tb =>
      by_cases hid : a.id = b.id
      · have hab : a = b :=
          hOK a (List.mem_cons_self a ta) b (List.mem_cons_self b tb) (Or.inl hid)
        have h1' : DexTypeList.lt ta tb = false := by
          simpa [DexTypeList.lt, hid] using h1
        have h2' : DexTypeList.lt tb ta = false := by
          simpa [DexTypeList.lt, hid] using h2
        have : ta = tb := ih tb
          (fun t₁ m₁ t₂ m₂ hd =>
            hOK t₁ (List.mem_cons_of_mem a m₁) t₂ (List.mem_cons_of_mem b m₂) hd)
          h1' h2'
        rw [hab, this]
      · have hc1 : compare_dextypes a b = false := by
          simpa [DexTypeList.lt, hid] using h1
        have hc2 : compare_dextypes b a = false := by
          simpa [DexTypeList.lt, Ne.symm hid] using h2
        have : a = b :=
          hOK a (List.mem_cons_self a ta) b (List.mem_cons_self b tb)
            (Or.inr ⟨hc1, hc2⟩)
        exact absurd (congrArg DexTypePtr.id this) hid

theorem proto_tie_eq (p₁ p₂ : DexProto)
    (hOK : ∀ t₁ ∈ p₁.rtype :: p₁.args, ∀ t₂ ∈ p₂.rtype :: p₂.args,
        (t₁.id = t₂.id ∨
          (compare_dextypes t₁ t₂ = false ∧ compare_dextypes t₂ t₁ = false)) →
        t₁ = t₂)
    (hkey : p₁.rtype = p₂.rtype → p₁.args = p₂.args → p₁ = p₂)
    (h1 : compare_dexprotos p₁ p₂ = false) (h2 : compare_dexprotos p₂ p₁ = false) :
    p₁ = p₂ := by
  by_cases hid : p₁.rtype.id = p₂.rtype.id
  · have hrt : p₁.rtype = p₂.rtype :=
      hOK p₁.rtype (List.mem_cons_self _ _) p₂.rtype (List.mem_cons_self _ _)
        (Or.inl hid)
    have h1' : DexTypeList.lt p₁.args p₂.args = false := by
      simpa [compare_dexprotos, hid] using h1
    have h2' : DexTypeList.lt p₂.args p₁.args = false := by
      simpa [compare_dexprotos, hid] using h2
    have hargs : p₁.args = p₂.args :=
      typelist_tie_eq p₁.args p₂.args
        (fun t₁ m₁ t₂ m₂ hd =>
          hOK t₁ (List.mem_cons_of_mem _ m₁) t₂ (List.mem_cons_of_mem _ m₂) hd)
        h1' h2'
    exact hkey hrt hargs
  · have hc1 : compare_dextypes p₁.rtype p₂.rtype = false := by
      simpa [compare_dexprotos, hid] using h1
    have hc2 : compare_dextypes p₂.rtype p₁.rtype = false := by
      simpa [compare_dexprotos, Ne.symm hid] using h2
    have : p₁.rtype = p₂.rtype :=
      hOK p₁.rtype (List.mem_cons_self _ _) p₂.rtype (List.mem_cons_self _ _)
        (Or.inr ⟨hc1, hc2⟩)
    exact absurd (congrArg (fun t => DexTypePtr.id t) this) hid

theorem sorted_perm_eq_aux {α : Type} (r : α → α → Prop) :
    ∀ (l₁ l₂ : List α), l₁.Perm l₂ →
      (∀ a ∈ l₁, ∀ b ∈ l₁, r a b → r b a → a = b) →
      l₁.Pairwise r → l₂.Pairwise r → l₁ = l₂ := by
  intro l₁
  induction l₁ with
  | nil => intro l₂ hp _ _ _; exact hp.nil_eq
  | cons a ta ih =>
    intro l₂ hp anti hs₁ hs₂
    cases l₂ with
    | nil => exact absurd hp.symm.nil_eq (by simp)
    | cons b tb =>
      by_cases hab : a = b
      · subst hab
        have htail : ta.Perm tb := hp.cons_inv
        have : ta = tb := ih tb htail
          (fun x hx y hy => anti x (List.mem_cons_of_mem a hx)
            y (List.mem_cons_of_mem a hy))
          (List.pairwise_cons.1 hs₁).2 (List.pairwise_cons.1 hs₂).2
        rw [this]
      · have hbmem : b ∈ a :: ta := hp.symm.subset (List.mem_cons_self b tb)
        have hbta : b ∈ ta := by
          rcases List.mem_cons.1 hbmem with hx | hx
          · exact absurd hx.symm hab
          · exact hx
        have hamem : a ∈ b :: tb := hp.subset (List.mem_cons_self a ta)
        have hatb : a ∈ tb := by
          rcases List.mem_cons.1 hamem with hx | hx
          · exact absurd hx hab
          · exact hx
        have hr1 : r a b := (List.pairwise_cons.1 hs₁).1 b hbta
        have hr2 : r b a := (List.pairwise_cons.1 hs₂).1 a hatb
        exact absurd (anti a (List.mem_cons_self a ta)
          b (List.mem_cons_of_mem a hbta) hr1 hr2) hab

theorem name_mem_stringsOf (m : DexMethodPtr) (t : DexTypePtr)
    (h : t ∈ m.typesOf) : t.name ∈ m.stringsOf := by
  simp only [DexMethodPtr.typesOf, List.mem_cons] at h
  rcases h with h | h | h
  · simp [DexMethodPtr.stringsOf, h]
  · simp [DexMethodPtr.stringsOf, h]
  · simp only [DexMethodPtr.stringsOf, List.mem_cons, List.mem_map]
    exact Or.inr (Or.inr (Or.inr (Or.inr ⟨t, h, rfl⟩)))

theorem method_tie_eq (l : List DexMethodPtr) (hI : methodsInterned l)
    (a b : DexMethodPtr) (ha : a ∈ l) (hb : b ∈ l)
    (h1 : compare_dexmethods a b = false)
    (h2 : compare_dexmethods b a = false) : a = b := by
  obtain ⟨hS, hT, hP, hM⟩ := hI
  have hmemT : ∀ m ∈ l, ∀ t ∈ DexMethodPtr.typesOf m,
      t ∈ l.flatMap DexMethodPtr.typesOf :=
    fun m hm t ht => List.mem_flatMap.2 ⟨m, hm, ht⟩
  have hmemS : ∀ m ∈ l, ∀ s ∈ DexMethodPtr.stringsOf m,
      s ∈ l.flatMap DexMethodPtr.stringsOf :=
    fun m hm s hs => List.mem_flatMap.2 ⟨m, hm, hs⟩
  have htypes : ∀ t₁ ∈ l.flatMap DexMethodPtr.typesOf,
      ∀ t₂ ∈ l.flatMap DexMethodPtr.typesOf,
      (t₁.id = t₂.id ∨
        (compare_dextypes t₁ t₂ = false ∧ compare_dextypes t₂ t₁ = false)) →
      t₁ = t₂ := by
    intro t₁ m₁ t₂ m₂ hd
    rcases hd with hd | hd
    · exact hT t₁ m₁ t₂ m₂ (Or.inl hd)
    · have hc := compare_dextypes_tie_eq t₁ t₂ hd.1 hd.2
      have hn : t₁.name = t₂.name := by
        obtain ⟨u₁, hu₁, htu₁⟩ := List.mem_flatMap.1 m₁
        obtain ⟨u₂, hu₂, htu₂⟩ := List.mem_flatMap.1 m₂
        exact hS t₁.name (hmemS u₁ hu₁ _ (name_mem_stringsOf u₁ t₁ htu₁))
          t₂.name (hmemS u₂ hu₂ _ (name_mem_stringsOf u₂ t₂ htu₂)) (Or.inr hc)
      exact hT t₁ m₁ t₂ m₂ (Or.inr hn)
  have haclsT : a.cls ∈ l.flatMap DexMethodPtr.typesOf :=
    hmemT a ha _ (by simp [DexMethodPtr.typesOf])
  have hbclsT : b.cls ∈ l.flatMap DexMethodPtr.typesOf :=
    hmemT b hb _ (by simp [DexMethodPtr.typesOf])
  by_cases hcid : a.cls.id = b.cls.id
  · have hcls : a.cls = b.cls := htypes _ haclsT _ hbclsT (Or.inl hcid)
    by_cases hnid : a.name.id = b.name.id
    · have hname : a.name = b.name :=
        hS a.name (hmemS a ha _ (by simp [DexMethodPtr.stringsOf]))
          b.name (hmemS b hb _ (by simp [DexMethodPtr.stringsOf])) (Or.inl hnid)
      have hp1 : compare_dexprotos a.proto b.proto = false := by
        simpa [compare_dexmethods, hcid, hnid] using h1
      have hp2 : compare_dexprotos b.proto a.proto = false := by
        simpa [compare_dexmethods, hcid.symm, hnid.symm] using h2
      have hproto : a.proto = b.proto := by
        apply proto_tie_eq a.proto b.proto ?_ (hP a ha b hb) hp1 hp2
        intro t₁ m₁ t₂ m₂ hd
        apply htypes t₁ ?_ t₂ ?_ hd
        · exact hmemT a ha _ (by
            simp only [DexMethodPtr.typesOf, List.mem_cons] at *
            tauto)
        · exact hmemT b hb _ (by
            simp only [DexMethodPtr.typesOf, List.mem_cons] at *
            tauto)
      exact hM a ha b hb hcls hname hproto
    · have hn1 : compare_dexstrings a.name.val b.name.val = false := by
        simpa [compare_dexmethods, hcid, hnid] using h1
      have hn2 : compare_dexstrings b.name.val a.name.val = false := by
        simpa [compare_dexmethods, hcid.symm, Ne.symm hnid] using h2
      have hc := compare_dexstrings_tie_eq _ _ hn1 hn2
      have : a.name = b.name :=
        hS a.name (hmemS a ha _ (by simp [DexMethodPtr.stringsOf]))
          b.name (hmemS b hb _ (by simp [DexMethodPtr.stringsOf])) (Or.inr hc)
      exact absurd (congrArg (fun s => DexStrPtr.id s) this) hnid
  · have hc1 : compare_dextypes a.cls b.cls = false := by
      simpa [compare_dexmethods, hcid] using h1
    have hc2 : compare_dextypes b.cls a.cls = false := by
      simpa [compare_dexmethods, Ne.symm hcid] using h2
    have : a.cls = b.cls := htypes _ haclsT _ hbclsT (Or.inr ⟨hc1, hc2⟩)
    exact absurd (congrArg (fun t => DexTypePtr.id t) this) hcid

/-- C5: compare_dexmethods is lexicographic by declaring type, then name,
then prototype, the prototype comparison being return-type order
tie-broken by argument type-list order; and, under the interning
invariant, a list of methods has a unique sorted arrangement with respect
to this comparator, so sorting is independent of insertion order. -/
theorem C5_method_ordering :
    (∀ a b : DexMethodPtr, a.cls.id ≠ b.cls.id →
        compare_dexmethods a b = compare_dextypes a.cls b.cls) ∧
    (∀ a b : DexMethodPtr, a.cls.id = b.cls.id → a.name.id ≠ b.name.id →
        compare_dexmethods a b = compare_dexstrings a.name.val b.name.val) ∧
    (∀ a b : DexMethodPtr, a.cls.id = b.cls.id → a.name.id = b.name.id →
        compare_dexmethods a b = compare_dexprotos a.proto b.proto) ∧
    (∀ p q : DexProto, p.rtype.id ≠ q.rtype.id →
        compare_dexprotos p q = compare_dextypes p.rtype q.rtype) ∧
    (∀ p q : DexProto, p.rtype.id = q.rtype.id →
        compare_dexprotos p q = DexTypeList.lt p.args q.args) ∧
    (∀ (l l₁ l₂ : List DexMethodPtr), methodsInterned l →
        l₁.Perm l → l₂.Perm l →
        l₁.Pairwise (fun a b => compare_dexmethods b a = false) →
        l₂.Pairwise (fun a b => compare_dexmethods b a = false) →
        l₁ = l₂) := by
  refine ⟨?_, ?_, ?_, ?_, ?_, ?_⟩
  · intro a b h; simp [compare_dexmethods, h]
  · intro a b h1 h2; simp [compare_dexmethods, h1, h2]
  · intro a b h1 h2; simp [compare_dexmethods, h1, h2]
  · intro p q h; simp [compare_dexprotos, h]
  · intro p q h; simp [compare_dexprotos, h]
  · intro l l₁ l₂ hI h1 h2 hs₁ hs₂
    apply sorted_perm_eq_aux (fun a b => compare_dexmethods b a = false) l₁ l₂
      (h1.trans h2.symm) ?_ hs₁ hs₂
    intro a hal b hbl hr1 hr2
    exact method_tie_eq l hI a b (h1.subset hal) (h1.subset hbl) hr2 hr1

/-- Witness for C5 on two concrete methods: the class-order conjunct at
methods with distinct declaring types, and the sorted-uniqueness conjunct
on a well-interned two-method list. -/
theorem C5_method_ordering_witness :
    compare_dexmethods
        ⟨0, ⟨0, ⟨0, ⟨[0x41], 1⟩⟩⟩, ⟨0, ⟨[0x41], 1⟩⟩,
          ⟨⟨0, ⟨0, ⟨[0x41], 1⟩⟩⟩, [], ⟨0, ⟨[0x41], 1⟩⟩⟩⟩
        ⟨1, ⟨1, ⟨1, ⟨[0x42], 1⟩⟩⟩, ⟨0, ⟨[0x41], 1⟩⟩,
          ⟨⟨0, ⟨0, ⟨[0x41], 1⟩⟩⟩, [], ⟨0, ⟨[0x41], 1⟩⟩⟩⟩ =
      compare_dextypes ⟨0, ⟨0, ⟨[0x41], 1⟩⟩⟩ ⟨1, ⟨1, ⟨[0x42], 1⟩⟩⟩ ∧
    ([⟨0, ⟨0, ⟨0, ⟨[0x41], 1⟩⟩⟩, ⟨0, ⟨[0x41], 1⟩⟩,
        ⟨⟨0, ⟨0, ⟨[0x41], 1⟩⟩⟩, [], ⟨0, ⟨[0x41], 1⟩⟩⟩⟩,
      ⟨1, ⟨1, ⟨1, ⟨[0x42], 1⟩⟩⟩, ⟨0, ⟨[0x41], 1⟩⟩,
        ⟨⟨0, ⟨0, ⟨[0x41], 1⟩⟩⟩, [], ⟨0, ⟨[0x41], 1⟩⟩⟩⟩] :
      List DexMethodPtr) =
    [⟨0, ⟨0, ⟨0, ⟨[0x41], 1⟩⟩⟩, ⟨0, ⟨[0x41], 1⟩⟩,
        ⟨⟨0, ⟨0, ⟨[0x41], 1⟩⟩⟩, [], ⟨0, ⟨[0x41], 1⟩⟩⟩⟩,
      ⟨1, ⟨1, ⟨1, ⟨[0x42], 1⟩⟩⟩, ⟨0, ⟨[0x41], 1⟩⟩,
        ⟨⟨0, ⟨0, ⟨[0x41], 1⟩⟩⟩, [], ⟨0, ⟨[0x41], 1⟩⟩⟩⟩] :=
  ⟨C5_method_ordering.1 _ _ (by decide),
   C5_method_ordering.2.2.2.2.2 _ _ _
     (by unfold methodsInterned stringsOK typesOK; decide)
     (List.Perm.refl _) (List.Perm.refl _) (by decide) (by decide)⟩

theorem assoc_cons {κ α : Type} [DecidableEq κ] (k' : κ) (v : α)
    (l : List (κ × α)) (k : κ) :
    assoc ((k', v) :: l) k = if k = k' then some v else assoc l k := rfl

theorem assoc_cons_of_some {κ α : Type} [DecidableEq κ] {l : List (κ × α)}
    {k k' : κ} {v : α} (w : α) (hk : assoc l k = some v)
    (hk' : assoc l k' = none) : assoc ((k', w) :: l) k = some v := by
  rw [assoc_cons]
  split_ifs with he
  · exact absurd (he ▸ hk) (by simp [hk'])
  · exact hk

theorem assoc_cons_of_none {κ α : Type} [DecidableEq κ] {l : List (κ × α)}
    {k k' : κ} (w : α) (hk : assoc l k = none) (hne : ¬ k = k') :
    assoc ((k', w) :: l) k = none := by
  rw [assoc_cons, if_neg hne]
  exact hk

theorem assoc_eraseKey_self {κ α : Type} [DecidableEq κ] (l : List (κ × α))
    (k : κ) : assoc (eraseKey l k) k = none := by
  induction l with
  | nil => rfl
  | cons a l ih =>
    obtain ⟨a₁, a₂⟩ := a
    by_cases h : a₁ = k
    · simpa [eraseKey, List.filter_cons, h] using ih
    · simpa [eraseKey, List.filter_cons, h, assoc_cons, Ne.symm h] using ih

theorem assoc_eraseKey_ne {κ α : Type} [DecidableEq κ] (l : List (κ × α))
    (k k' : κ) (h : ¬ k' = k) : assoc (eraseKey l k) k' = assoc l k' := by
  induction l with
  | nil => rfl
  | cons a l ih =>
    obtain ⟨a₁, a₂⟩ := a
    by_cases hx : a₁ = k
    · simpa [eraseKey, List.filter_cons, hx, assoc_cons, h] using ih
    · by_cases hy : k' = a₁
      · simp [eraseKey, List.filter_cons, hx, assoc_cons, hy]
      · simpa [eraseKey, List.filter_cons, hx, assoc_cons, hy] using ih

theorem makeString_hit (g : RedexContext) (n : List Nat) (u p : Nat)
    (h : assoc g.strings n = some p) : g.makeString n u = (p, g) := by
  unfold RedexContext.makeString
  rw [h]

theorem makeString_miss (g : RedexContext) (n : List Nat) (u : Nat)
    (h : assoc g.strings n = none) :
    g.makeString n u = (g.next,
      { g with strings := (n, g.next) :: g.strings, next := g.next + 1 }) := by
  unfold RedexContext.makeString
  rw [h]

theorem makeType_hit (g : RedexContext) (n p : Nat)
    (h : assoc g.types n = some p) : g.makeType n = (p, g) := by
  unfold RedexContext.makeType
  rw [h]

theorem makeType_miss (g : RedexContext) (n : Nat)
    (h : assoc g.types n = none) :
    g.makeType n = (g.next,
      { g with types := (n, g.next) :: g.types,
               typeHeap := (g.next, n) :: g.typeHeap,
               next := g.next + 1 }) := by
  unfold RedexContext.makeType
  rw [h]

theorem makeField_hit (g : RedexContext) (c n t p : Nat)
    (h : assoc g.fields (c, n, t) = some p) : g.makeField c n t = (p, g) := by
  unfold RedexContext.makeField
  rw [h]

theorem makeField_miss (g : RedexContext) (c n t : Nat)
    (h : assoc g.fields (c, n, t) = none) :
    g.makeField c n t = (g.next,
      { g with fields := ((c, n, t), g.next) :: g.fields,
               fieldHeap := (g.next, DexField.init c n t) :: g.fieldHeap,
               next := g.next + 1 }) := by
  unfold RedexContext.makeField
  rw [h]

theorem makeMethod_hit (g : RedexContext) (c n pr p : Nat)
    (h : assoc g.methods (c, n, pr) = some p) : g.makeMethod c n pr = (p, g) := by
  unfold RedexContext.makeMethod
  rw [h]

theorem makeMethod_miss (g : RedexContext) (c n pr : Nat)
    (h : assoc g.methods (c, n, pr) = none) :
    g.makeMethod c n pr = (g.next,
      { g with methods := ((c, n, pr), g.next) :: g.methods,
               methodHeap := (g.next, DexMethod.init c n pr) :: g.methodHeap,
               next := g.next + 1 }) := by
  unfold RedexContext.makeMethod
  rw [h]

theorem exec_opLookup (g : RedexContext) (op : RedexOp) :
    ((g.exec op).2).opLookup op = some (g.exec op).1 := by
  cases op with
  | mkString n u =>
    simp only [RedexContext.exec]
    rcases hx : assoc g.strings n with _ | p
    · rw [makeString_miss g n u hx]
      simp [RedexContext.opLookup, RedexContext.getString, assoc_cons]
    · rw [makeString_hit g n u p hx]
      exact hx
  | mkType n =>
    simp only [RedexContext.exec]
    rcases hx : assoc g.types n with _ | p
    · rw [makeType_miss g n hx]
      simp [RedexContext.opLookup, RedexContext.getType, assoc_cons]
    · rw [makeType_hit g n p hx]
      exact hx
  | mkField c n t =>
    simp only [RedexContext.exec]
    rcases hx : assoc g.fields (c, n, t) with _ | p
    · rw [makeField_miss g c n t hx]
      simp [RedexContext.opLookup, RedexContext.getField, assoc_cons]
    · rw [makeField_hit g c n t p hx]
      exact hx
  | mkMethod c n pr =>
    simp only [RedexContext.exec]
    rcases hx : assoc g.methods (c, n, pr) with _ | p
    · rw [makeMethod_miss g c n pr hx]
      simp [RedexContext.opLookup, RedexContext.getMethod, assoc_cons]
    · rw [makeMethod_hit g c n pr p hx]
      exact hx

theorem exec_of_hit (g : RedexContext) (op : RedexOp) (p : Nat)
    (h : g.opLookup op = some p) : g.exec op = (p, g) := by
  cases op with
  | mkString n u =>
    simp only [RedexContext.exec]
    exact makeString_hit g n u p h
  | mkType n =>
    simp only [RedexContext.exec]
    exact makeType_hit g n p h
  | mkField c n t =>
    simp only [RedexContext.exec]
    exact makeField_hit g c n t p h
  | mkMethod c n pr =>
    simp only [RedexContext.exec]
    exact makeMethod_hit g c n pr p h

theorem opLookup_some_preserved (g : RedexContext) (op op' : RedexOp) (p : Nat)
    (h : g.opLookup op = some p) : ((g.exec op').2).opLookup op = some p := by
  cases op' with
  | mkString n u =>
    simp only [RedexContext.exec]
    rcases hx : assoc g.strings n with _ | p'
    · rw [makeString_miss g n u hx]
      cases op with
      | mkString n₂ u₂ => exact assoc_cons_of_some _ h hx
      | mkType m => exact h
      | mkField a b c => exact h
      | mkMethod a b c => exact h
    · rw [makeString_hit g n u p' hx]
      exact h
  | mkType n =>
    simp only [RedexContext.exec]
    rcases hx : assoc g.types n with _ | p'
    · rw [makeType_miss g n hx]
      cases op with
      | mkType n₂ => exact assoc_cons_of_some _ h hx
      | mkString n₂ u₂ => exact h
      | mkField a b c => exact h
      | mkMethod a b c => exact h
    · rw [makeType_hit g n p' hx]
      exact h
  | mkField c n t =>
    simp only [RedexContext.exec]
    rcases hx : assoc g.fields (c, n, t) with _ | p'
    · rw [makeField_miss g c n t hx]
      cases op with
      | mkField a b d => exact assoc_cons_of_some _ h hx
      | mkString n₂ u₂ => exact h
      | mkType m => exact h
      | mkMethod a b d => exact h
    · rw [makeField_hit g c n t p' hx]
      exact h
  | mkMethod c n pr =>
    simp only [RedexContext.exec]
    rcases hx : assoc g.methods (c, n, pr) with _ | p'
    · rw [makeMethod_miss g c n pr hx]
      cases op with
      | mkMethod a b d => exact assoc_cons_of_some _ h hx
      | mkString n₂ u₂ => exact h
      | mkType m => exact h
      | mkField a b d => exact h
    · rw [makeMethod_hit g c n pr p' hx]
      exact h

theorem opLookup_none_preserved (g : RedexContext) (op op' : RedexOp)
    (h : g.opLookup op = none) (hkey : RedexOp.sameKey op' op = false) :
    ((g.exec op').2).opLookup op = none := by
  cases op' with
  | mkString n u =>
    simp only [RedexContext.exec]
    rcases hx : assoc g.strings n with _ | p'
    · rw [makeString_miss g n u hx]
      cases op with
      | mkString n₂ u₂ =>
        have hkey' : ¬ n = n₂ := by simpa [RedexOp.sameKey] using hkey
        exact assoc_cons_of_none _ h (fun he => hkey' he.symm)
      | mkType m => exact h
      | mkField a b c => exact h
      | mkMethod a b c => exact h
    · rw [makeString_hit g n u p' hx]
      exact h
  | mkType n =>
    simp only [RedexContext.exec]
    rcases hx : assoc g.types n with _ | p'
    · rw [makeType_miss g n hx]
      cases op with
      | mkType n₂ =>
        have hkey' : ¬ n = n₂ := by simpa [RedexOp.sameKey] using hkey
        exact assoc_cons_of_none _ h (fun he => hkey' he.symm)
      | mkString n₂ u₂ => exact h
      | mkField a b c => exact h
      | mkMethod a b c => exact h
    · rw [makeType_hit g n p' hx]
      exact h
  | mkField c n t =>
    simp only [RedexContext.exec]
    rcases hx : assoc g.fields (c, n, t) with _ | p'
    · rw [makeField_miss g c n t hx]
      cases op with
      | mkField c₂ n₂ t₂ =>
        have hkey' : ¬ (c = c₂ ∧ n = n₂ ∧ t = t₂) := by
          simpa [RedexOp.sameKey] using hkey
        refine assoc_cons_of_none _ h ?_
        intro he
        simp only [Prod.mk.injEq] at he
        exact hkey' ⟨he.1.symm, he.2.1.symm, he.2.2.symm⟩
      | mkString n₂ u₂ => exact h
      | mkType m => exact h
      | mkMethod a b d => exact h
    · rw [makeField_hit g c n t p' hx]
      exact h
  | mkMethod c n pr =>
    simp only [RedexContext.exec]
    rcases hx : assoc g.methods (c, n, pr) with _ | p'
    · rw [makeMethod_miss g c n pr hx]
      cases op with
      | mkMethod c₂ n₂ p₂ =>
        have hkey' : ¬ (c = c₂ ∧ n = n₂ ∧ pr = p₂) := by
          simpa [RedexOp.sameKey] using hkey
        refine assoc_cons_of_none _ h ?_
        intro he
        simp only [Prod.mk.injEq] at he
        exact hkey' ⟨he.1.symm, he.2.1.symm, he.2.2.symm⟩
      | mkString n₂ u₂ => exact h
      | mkType m => exact h
      | mkField a b d => exact h
    · rw [makeMethod_hit g c n pr p' hx]
      exact h

theorem run_append (g : RedexContext) (l₁ l₂ : List RedexOp) :
    g.run (l₁ ++ l₂) = (g.run l₁).run l₂ := by
  induction l₁ generalizing g with
  | nil => rfl
  | cons op rest ih =>
    simp only [List.cons_append, RedexContext.run]
    exact ih _

theorem run_preserves_some (g : RedexContext) (op : RedexOp) (p : Nat)
    (ops : List RedexOp) (h : g.opLookup op = some p) :
    (g.run ops).opLookup op = some p := by
  induction ops generalizing g with
  | nil => exact h
  | cons op' rest ih =>
    simp only [RedexContext.run]
    exact ih _ (opLookup_some_preserved g op op' p h)

theorem run_preserves_none :
    ∀ (ops : List RedexOp) (g : RedexContext) (op : RedexOp),
      g.opLookup op = none →
      (∀ op' ∈ ops, RedexOp.sameKey op' op = false) →
      (g.run ops).opLookup op = none := by
  intro ops
  induction ops with
  | nil => intro g op h _; exact h
  | cons op' rest ih =>
    intro g op h hkey
    simp only [RedexContext.run]
    exact ih _ op
      (opLookup_none_preserved g op op' h (hkey op' (List.mem_cons_self _ _)))
      (fun x hx => hkey x (List.mem_cons_of_mem _ hx))

theorem opLookup_empty (op : RedexOp) :
    RedexContext.empty.opLookup op = none := by
  cases op <;> rfl

/-- C1: in any run of factory calls, a later make with the same kind and
attribute-equal arguments returns the pointer the earlier make returned;
a get right after a make with the same arguments finds exactly that
pointer; and from the empty authority, a get whose key no executed make
shares resolves to not-found (gets themselves are stateless by type, so
they never create). -/
theorem C1_interning_uniqueness :
    (∀ (g : RedexContext) (pre mid : List RedexOp) (op : RedexOp),
        ((g.run (pre ++ op :: mid)).exec op).1 = ((g.run pre).exec op).1) ∧
    (∀ (g : RedexContext) (op : RedexOp),
        ((g.exec op).2).opLookup op = some (g.exec op).1) ∧
    (∀ (ops : List RedexOp) (op : RedexOp),
        (∀ op' ∈ ops, RedexOp.sameKey op' op = false) →
        (RedexContext.empty.run ops).opLookup op = none) := by
  refine ⟨?_, exec_opLookup, ?_⟩
  · intro g pre mid op
    have h1 : ((g.run pre).exec op).2.opLookup op =
        some ((g.run pre).exec op).1 := exec_opLookup _ _
    have h2 : ((g.run (pre ++ [op])).run mid).opLookup op =
        some ((g.run pre).exec op).1 := by
      apply run_preserves_some
      rw [run_append]
      simpa [RedexContext.run] using h1
    have h3 : g.run (pre ++ op :: mid) = (g.run (pre ++ [op])).run mid := by
      rw [← run_append]
      simp
    rw [h3, exec_of_hit _ op _ h2]
  · intro ops op hkey
    exact run_preserves_none ops RedexContext.empty op (opLookup_empty op) hkey

/-- Witness for C1: a make_string repeated after an unrelated make_type
still yields the first pointer, and a get for a type key never made is
not-found. -/
theorem C1_interning_uniqueness_witness :
    ((RedexContext.empty.run
        ([RedexOp.mkType 7] ++ RedexOp.mkString [0x61] 1 ::
          [RedexOp.mkType 8])).exec (RedexOp.mkString [0x61] 1)).1 =
      ((RedexContext.empty.run [RedexOp.mkType 7]).exec
        (RedexOp.mkString [0x61] 1)).1 ∧
    (RedexContext.empty.run [RedexOp.mkString [0x61] 1]).opLookup
      (RedexOp.mkType 7) = none :=
  ⟨C1_interning_uniqueness.1 RedexContext.empty [RedexOp.mkType 7]
      [RedexOp.mkType 8] (RedexOp.mkString [0x61] 1),
   C1_interning_uniqueness.2.2 [RedexOp.mkString [0x61] 1] (RedexOp.mkType 7)
      (by decide)⟩

/-- C6: aliasing a type's name re-keys the authority in one step: the old
name stops resolving, the new name resolves to the original type object
(same pointer), the object's stored name is updated in place, every other
key is untouched, and before as after exactly one of the two keys
resolves. -/
theorem C6_type_rekeying (g : RedexContext) (t oldName newName : Nat)
    (hheap : assoc g.typeHeap t = some oldName)
    (hold : assoc g.types oldName = some t)
    (hnew : assoc g.types newName = none) :
    (g.aliasTypeName t newName).getType oldName = none ∧
    (g.aliasTypeName t newName).getType newName = some t ∧
    assoc (g.aliasTypeName t newName).typeHeap t = some newName ∧
    (∀ n, n ≠ oldName → n ≠ newName →
        (g.aliasTypeName t newName).getType n = g.getType n) ∧
    g.getType oldName = some t ∧ g.getType newName = none := by
  have hne : oldName ≠ newName := by
    intro he
    rw [he, hnew] at hold
    exact Option.noConfusion hold
  unfold RedexContext.aliasTypeName
  rw [hheap]
  refine ⟨?_, ?_, ?_, ?_, hold, hnew⟩
  · show assoc ((newName, t) :: eraseKey g.types oldName) oldName = none
    rw [assoc_cons, if_neg hne]
    exact assoc_eraseKey_self _ _
  · show assoc ((newName, t) :: eraseKey g.types oldName) newName = some t
    rw [assoc_cons, if_pos rfl]
  · show assoc ((t, newName) :: eraseKey g.typeHeap t) t = some newName
    rw [assoc_cons, if_pos rfl]
  · intro n h1 h2
    show assoc ((newName, t) :: eraseKey g.types oldName) n = assoc g.types n
    rw [assoc_cons, if_neg h2]
    exact assoc_eraseKey_ne _ _ _ h1

/-- Witness for C6 on a concrete authority holding one type (pointer 9,
named by string 5), re-keyed to string 6. -/
theorem C6_type_rekeying_witness :
    ((⟨[], [(5, 9)], [(9, 5)], [], [], [], [], 10⟩ :
        RedexContext).aliasTypeName 9 6).getType 5 = none ∧
    ((⟨[], [(5, 9)], [(9, 5)], [], [], [], [], 10⟩ :
        RedexContext).aliasTypeName 9 6).getType 6 = some 9 ∧
    assoc ((⟨[], [(5, 9)], [(9, 5)], [], [], [], [], 10⟩ :
        RedexContext).aliasTypeName 9 6).typeHeap 9 = some 6 :=
  ⟨(C6_type_rekeying (⟨[], [(5, 9)], [(9, 5)], [], [], [], [], 10⟩ :
      RedexContext) 9 5 6 (by decide) (by decide) (by decide)).1,
   (C6_type_rekeying (⟨[], [(5, 9)], [(9, 5)], [], [], [], [], 10⟩ :
      RedexContext) 9 5 6 (by decide) (by decide) (by decide)).2.1,
   (C6_type_rekeying (⟨[], [(5, 9)], [(9, 5)], [], [], [], [], 10⟩ :
      RedexContext) 9 5 6 (by decide) (by decide) (by decide)).2.2.1⟩

/-- C7: attach_annotation_set on a field or method succeeds exactly when
no annotation set is attached and the entity is not yet concrete, storing
the set; in every other case it takes the fatal assertion path; hence at
most one attachment can succeed before the entity becomes concrete.
Parameter annotation sets behave the same per parameter index. -/
theorem C7_annotation_attach :
    (∀ (f : DexFieldObj) (a : Nat),
        (f.attach_annotation_set a).isSome = true ↔
          (f.anno = none ∧ f.concrete = false)) ∧
    (∀ (f : DexFieldObj) (a : Nat) (f' : DexFieldObj),
        f.attach_annotation_set a = some f' → f'.anno = some a) ∧
    (∀ (f : DexFieldObj) (a : Nat) (f' : DexFieldObj) (a' : Nat),
        f.attach_annotation_set a = some f' →
        f'.attach_annotation_set a' = none) ∧
    (∀ (m : DexMethodObj) (a : Nat),
        (m.attach_annotation_set a).isSome = true ↔
          (m.anno = none ∧ m.concrete = false)) ∧
    (∀ (m : DexMethodObj) (a : Nat) (m' : DexMethodObj),
        m.attach_annotation_set a = some m' → m'.anno = some a) ∧
    (∀ (m : DexMethodObj) (a : Nat) (m' : DexMethodObj) (a' : Nat),
        m.attach_annotation_set a = some m' →
        m'.attach_annotation_set a' = none) ∧
    (∀ (m : DexMethodObj) (p : Int) (a : Nat),
        (m.attach_param_annotation_set p a).isSome = true ↔
          (assoc m.param_anno p = none ∧ m.concrete = false)) := by
  refine ⟨?_, ?_, ?_, ?_, ?_, ?_, ?_⟩
  · intro f a
    unfold DexFieldObj.attach_annotation_set
    split_ifs with h
    · simp [h]
    · simp [h]
  · intro f a f' h
    unfold DexFieldObj.attach_annotation_set at h
    split_ifs at h with hc
    · injection h with h'
      rw [← h']
  · intro f a f' a' h
    have h2 : f'.anno = some a := by
      unfold DexFieldObj.attach_annotation_set at h
      split_ifs at h with hc
      · injection h with h'
        rw [← h']
    unfold DexFieldObj.attach_annotation_set
    have : ¬ (f'.anno = none ∧ f'.concrete = false) := by
      intro hcon
      rw [h2] at hcon
      exact Option.noConfusion hcon.1
    rw [if_neg this]
  · intro m a
    unfold DexMethodObj.attach_annotation_set
    split_ifs with h
    · simp [h]
    · simp [h]
  · intro m a m' h
    unfold DexMethodObj.attach_annotation_set at h
    split_ifs at h with hc
    · injection h with h'
      rw [← h']
  · intro m a m' a' h
    have h2 : m'.anno = some a := by
      unfold DexMethodObj.attach_annotation_set at h
      split_ifs at h with hc
      · injection h with h'
        rw [← h']
    unfold DexMethodObj.attach_annotation_set
    have : ¬ (m'.anno = none ∧ m'.concrete = false) := by
      intro hcon
      rw [h2] at hcon
      exact Option.noConfusion hcon.1
    rw [if_neg this]
  · intro m p a
    unfold DexMethodObj.attach_param_annotation_set
    split_ifs with h
    · simp [h]
    · simp [h]

/-- Witness for C7: a fresh field reference accepts one annotation set,
a second attachment on the result is rejected, and a concrete method
rejects attachment. -/
theorem C7_annotation_attach_witness :
    ((DexField.init 0 1 2).attach_annotation_set 5).isSome = true ∧
    ({ DexField.init 0 1 2 with anno := some 5 } : DexFieldObj).anno = some 5 ∧
    ({ DexField.init 0 1 2 with
        anno := some 5 } : DexFieldObj).attach_annotation_set 6 = none ∧
    ((⟨0, 0, 0, none, none, 0, true, false, false, []⟩ :
        DexMethodObj).attach_annotation_set 5).isSome = false :=
  ⟨(C7_annotation_attach.1 (DexField.init 0 1 2) 5).2 (by decide),
   C7_annotation_attach.2.1 (DexField.init 0 1 2) 5 _ (by decide),
   C7_annotation_attach.2.2.1 (DexField.init 0 1 2) 5
     { DexField.init 0 1 2 with anno := some 5 } 6 (by decide),
   by
     refine Bool.eq_false_iff.2 (fun ht => ?_)
     have h := (C7_annotation_attach.2.2.2.1
       (⟨0, 0, 0, none, none, 0, true, false, false, []⟩ : DexMethodObj) 5).1 ht
     exact absurd h.2 (by decide)⟩

/-- C8: get_access returns the stored flags exactly on a definition
(concrete or external); on a bare reference it takes the fatal assertion
path, which is unreachable under the is_def precondition. -/
theorem C8_access_read_precondition :
    (∀ f : DexFieldObj, (f.get_access).isSome = true ↔ f.is_def = true) ∧
    (∀ f : DexFieldObj, f.is_def = true → f.get_access = some f.access) ∧
    (∀ f : DexFieldObj, f.concrete = false → f.external = false →
        f.get_access = none) ∧
    (∀ f : DexFieldObj, f.is_def = (f.concrete || f.external)) ∧
    (∀ m : DexMethodObj, (m.get_access).isSome = true ↔ m.is_def = true) ∧
    (∀ m : DexMethodObj, m.is_def = true → m.get_access = some m.access) ∧
    (∀ m : DexMethodObj, m.concrete = false → m.external = false →
        m.get_access = none) ∧
    (∀ m : DexMethodObj, m.is_def = (m.concrete || m.external)) := by
  refine ⟨?_, ?_, ?_, fun f => rfl, ?_, ?_, ?_, fun m => rfl⟩
  · intro f
    unfold DexFieldObj.get_access
    split_ifs with h
    · simp [h]
    · simp [h]
  · intro f h
    unfold DexFieldObj.get_access
    rw [if_pos h]
  · intro f h1 h2
    unfold DexFieldObj.get_access DexFieldObj.is_def
    rw [h1, h2]
    rfl
  · intro m
    unfold DexMethodObj.get_access
    split_ifs with h
    · simp [h]
    · simp [h]
  · intro m h
    unfold DexMethodObj.get_access
    rw [if_pos h]
  · intro m h1 h2
    unfold DexMethodObj.get_access DexMethodObj.is_def
    rw [h1, h2]
    rfl

/-- Witness for C8: a concrete field hands out its flags, a bare
reference hits the assertion path. -/
theorem C8_access_read_precondition_witness :
    ((⟨0, 0, 0, none, none, 7, true, false⟩ : DexFieldObj).get_access =
      some 7) ∧
    (DexField.init 0 0 0).get_access = none ∧
    (⟨0, 0, 0, none, none, 3, false, false, true, []⟩ :
        DexMethodObj).get_access = some 3 :=
  ⟨C8_access_read_precondition.2.1 ⟨0, 0, 0, none, none, 7, true, false⟩
      (by decide),
   C8_access_read_precondition.2.2.1 (DexField.init 0 0 0) rfl rfl,
   C8_access_read_precondition.2.2.2.2.2.1
      ⟨0, 0, 0, none, none, 3, false, false, true, []⟩ (by decide)⟩

/-- C9 counterexample: DexField::set_access guards only on the external
flag, so on a field already marked concrete (and not external) it stores
the flags and returns instead of taking the fatal assertion path the
claim requires for every entity already marked external or concrete. -/
theorem C9_counterexample :
    ((⟨0, 0, 0, none, none, 0, true, false⟩ : DexFieldObj).set_access 1).isSome
      = true := by decide

/-- C9 as amended: the guards the code actually enforces. set_access and
set_virtual reject external entities (but not merely concrete ones);
set_external rejects concrete entities (but is a no-op-like success on an
already external, non-concrete one); attach_annotation_set rejects
concrete entities and entities already carrying a set; an external
class's mutable member-list accessors, set_access and set_interfaces
reject; and no successful operation ever clears the concrete or external
flag, so an entity never returns to being a bare reference. -/
theorem C9_flag_guards_monotonic :
    (∀ (f : DexFieldObj) (a : Nat), f.external = true → f.set_access a = none) ∧
    (∀ f : DexFieldObj, f.concrete = true → f.set_external = none) ∧
    (∀ (f : DexFieldObj) (a : Nat), f.concrete = true →
        f.attach_annotation_set a = none) ∧
    (∀ (f : DexFieldObj) (a : Nat), f.anno ≠ none →
        f.attach_annotation_set a = none) ∧
    (∀ (m : DexMethodObj) (a : Nat), m.external = true → m.set_access a = none) ∧
    (∀ (m : DexMethodObj) (v : Bool), m.external = true →
        m.set_virtual v = none) ∧
    (∀ m : DexMethodObj, m.concrete = true → m.set_external = none) ∧
    (∀ (m : DexMethodObj) (a : Nat), m.concrete = true →
        m.attach_annotation_set a = none) ∧
    (∀ (m : DexMethodObj) (p : Int) (a : Nat), m.concrete = true →
        m.attach_param_annotation_set p a = none) ∧
    (∀ c : DexClassObj, c.external = true →
        c.get_dmethods_mut = none ∧ c.get_vmethods_mut = none ∧
        c.get_sfields_mut = none ∧ c.get_ifields_mut = none) ∧
    (∀ (c : DexClassObj) (a : Nat), c.external = true → c.set_access a = none) ∧
    (∀ (c : DexClassObj) (l : List Nat), c.external = true →
        c.set_interfaces l = none) ∧
    (∀ (f f' : DexFieldObj) (a : Nat), f.set_access a = some f' →
        f'.concrete = f.concrete ∧ f'.external = f.external) ∧
    (∀ f f' : DexFieldObj, f.set_external = some f' →
        f'.concrete = f.concrete ∧ f'.external = true) ∧
    (∀ (f f' : DexFieldObj) (a : Nat), f.attach_annotation_set a = some f' →
        f'.concrete = f.concrete ∧ f'.external = f.external) ∧
    (∀ (m m' : DexMethodObj) (a : Nat), m.set_access a = some m' →
        m'.concrete = m.concrete ∧ m'.external = m.external) ∧
    (∀ (m m' : DexMethodObj) (v : Bool), m.set_virtual v = some m' →
        m'.concrete = m.concrete ∧ m'.external = m.external) ∧
    (∀ m m' : DexMethodObj, m.set_external = some m' →
        m'.concrete = m.concrete ∧ m'.external = true) ∧
    (∀ (m m' : DexMethodObj) (a : Nat), m.attach_annotation_set a = some m' →
        m'.concrete = m.concrete ∧ m'.external = m.external) ∧
    (∀ (m m' : DexMethodObj) (p : Int) (a : Nat),
        m.attach_param_annotation_set p a = some m' →
        m'.concrete = m.concrete ∧ m'.external = m.external) := by
  refine ⟨?_, ?_, ?_, ?_, ?_, ?_, ?_, ?_, ?_, ?_, ?_, ?_, ?_, ?_, ?_, ?_, ?_,
    ?_, ?_, ?_⟩
  · intro f a h
    simp [DexFieldObj.set_access, h]
  · intro f h
    simp [DexFieldObj.set_external, h]
  · intro f a h
    simp [DexFieldObj.attach_annotation_set, h]
  · intro f a h
    simp [DexFieldObj.attach_annotation_set, h]
  · intro m a h
    simp [DexMethodObj.set_access, h]
  · intro m v h
    simp [DexMethodObj.set_virtual, h]
  · intro m h
    simp [DexMethodObj.set_external, h]
  · intro m a h
    simp [DexMethodObj.attach_annotation_set, h]
  · intro m p a h
    simp [DexMethodObj.attach_param_annotation_set, h]
  · intro c h
    exact ⟨by simp [DexClassObj.get_dmethods_mut, h],
      by simp [DexClassObj.get_vmethods_mut, h],
      by simp [DexClassObj.get_sfields_mut, h],
      by simp [DexClassObj.get_ifields_mut, h]⟩
  · intro c a h
    simp [DexClassObj.set_access, h]
  · intro c l h
    simp [DexClassObj.set_interfaces, h]
  · intro f f' a h
    unfold DexFieldObj.set_access at h
    split_ifs at h
    injection h with h'
    rw [← h']
    exact ⟨rfl, rfl⟩
  · intro f f' h
    unfold DexFieldObj.set_external at h
    split_ifs at h
    injection h with h'
    rw [← h']
    exact ⟨rfl, rfl⟩
  · intro f f' a h
    unfold DexFieldObj.attach_annotation_set at h
    split_ifs at h
    injection h with h'
    rw [← h']
    exact ⟨rfl, rfl⟩
  · intro m m' a h
    unfold DexMethodObj.set_access at h
    split_ifs at h
    injection h with h'
    rw [← h']
    exact ⟨rfl, rfl⟩
  · intro m m' v h
    unfold DexMethodObj.set_virtual at h
    split_ifs at h
    injection h with h'
    rw [← h']
    exact ⟨rfl, rfl⟩
  · intro m m' h
    unfold DexMethodObj.set_external at h
    split_ifs at h
    injection h with h'
    rw [← h']
    exact ⟨rfl, rfl⟩
  · intro m m' a h
    unfold DexMethodObj.attach_annotation_set at h
    split_ifs at h
    injection h with h'
    rw [← h']
    exact ⟨rfl, rfl⟩
  · intro m m' p a h
    unfold DexMethodObj.attach_param_annotation_set at h
    split_ifs at h
    injection h with h'
    rw [← h']
    exact ⟨rfl, rfl⟩

/-- Witness for C9's amended statement: an external field rejects
set_access, a concrete field rejects set_external, an external class
hides its mutable direct-method list, and a successful set_external on a
bare reference raises the external flag without touching concreteness. -/
theorem C9_flag_guards_monotonic_witness :
    (⟨0, 0, 0, none, none, 0, false, true⟩ : DexFieldObj).set_access 3 = none ∧
    (⟨0, 0, 0, none, none, 0, true, false⟩ : DexFieldObj).set_external = none ∧
    (⟨0, true, [], [], [1], [], []⟩ : DexClassObj).get_dmethods_mut = none ∧
    (({ DexField.init 0 0 0 with external := true } : DexFieldObj).concrete =
        (DexField.init 0 0 0).concrete ∧
      ({ DexField.init 0 0 0 with external := true} : DexFieldObj).external =
        true) :=
  ⟨C9_flag_guards_monotonic.1 ⟨0, 0, 0, none, none, 0, false, true⟩ 3 rfl,
   C9_flag_guards_monotonic.2.1 ⟨0, 0, 0, none, none, 0, true, false⟩ rfl,
   (C9_flag_guards_monotonic.2.2.2.2.2.2.2.2.2.1
      ⟨0, true, [], [], [1], [], []⟩ rfl).1,
   C9_flag_guards_monotonic.2.2.2.2.2.2.2.2.2.2.2.2.2.1
      (DexField.init 0 0 0) { DexField.init 0 0 0 with external := true }
      (by decide)⟩

/-- C10: the first make for a field or method key records a
constructor-fresh object in the heap: a bare reference (neither concrete
nor external, so not a definition) with no annotations, access flags 0,
and, for fields, no static value; for methods additionally no code, not
virtual, and a null parameter-annotation map. -/
theorem C10_fresh_reference_defaults :
    (∀ (g : RedexContext) (c n t : Nat), g.getField c n t = none →
        assoc ((g.makeField c n t).2).fieldHeap (g.makeField c n t).1 =
          some (DexField.init c n t)) ∧
    (∀ c n t : Nat, (DexField.init c n t).concrete = false ∧
        (DexField.init c n t).external = false ∧
        (DexField.init c n t).is_def = false ∧
        (DexField.init c n t).get_anno_set = none ∧
        (DexField.init c n t).get_static_value = none ∧
        (DexField.init c n t).access = 0) ∧
    (∀ (g : RedexContext) (c n p : Nat), g.getMethod c n p = none →
        assoc ((g.makeMethod c n p).2).methodHeap (g.makeMethod c n p).1 =
          some (DexMethod.init c n p)) ∧
    (∀ c n p : Nat, (DexMethod.init c n p).concrete = false ∧
        (DexMethod.init c n p).external = false ∧
        (DexMethod.init c n p).is_def = false ∧
        (DexMethod.init c n p).get_anno_set = none ∧
        (DexMethod.init c n p).get_code = none ∧
        (DexMethod.init c n p).is_virtual = false ∧
        (DexMethod.init c n p).access = 0 ∧
        (DexMethod.init c n p).get_param_anno = none) := by
  refine ⟨?_, fun c n t => ⟨rfl, rfl, rfl, rfl, rfl, rfl⟩, ?_,
    fun c n p => ⟨rfl, rfl, rfl, rfl, rfl, rfl, rfl, rfl⟩⟩
  · intro g c n t h
    rw [makeField_miss g c n t h]
    simp [assoc_cons]
  · intro g c n p h
    rw [makeMethod_miss g c n p h]
    simp [assoc_cons]

/-- Witness for C10: the first make_field and make_method on the empty
authority store constructor-fresh objects. -/
theorem C10_fresh_reference_defaults_witness :
    assoc ((RedexContext.empty.makeField 1 2 3).2).fieldHeap
      (RedexContext.empty.makeField 1 2 3).1 = some (DexField.init 1 2 3) ∧
    assoc ((RedexContext.empty.makeMethod 4 5 6).2).methodHeap
      (RedexContext.empty.makeMethod 4 5 6).1 = some (DexMethod.init 4 5 6) :=
  ⟨C10_fresh_reference_defaults.1 RedexContext.empty 1 2 3 rfl,
   C10_fresh_reference_defaults.2.2.1 RedexContext.empty 4 5 6 rfl⟩
